import Mathlib

/-!
Verification of the llmix configuration resolution and caching engine.

The definitions below are a shallow embedding of the TypeScript sources:

* `src/lru-cache.ts`    — the process-local LRU+TTL cache (`LRUCache`);
* `src/yaml-loader.ts`  — the validators (`validateModule`, `validateProfile`,
  `validateScope`, `validateUserId`, `validateVersion`);
* `src/config-loader.ts` — cascade-step generation (`generateCascadeSteps`),
  cascade resolution (`resolveWithCascade`), key construction
  (`buildConfigId`, `buildRedisKey`, `buildExperimentKey`), the A/B
  experiment check (`getExperimentConfig`) and the tier-dispatch skeleton of
  `loadConfig`.

JavaScript `Map` objects are embedded as association lists in insertion
order (head = oldest = first iterated).  Timestamps (`Date.now()`) are
explicit `Nat` parameters.  Machine floating point appears only in the
derived `hitRate` statistic, which is embedded with exact rationals.
-/

namespace Llmix

/-! ## JavaScript Map as an association list (insertion order, head oldest) -/

/-- A cache entry, from `src/lru-cache.ts`: `{ value, timestamp }` where
`timestamp` is the `Date.now()` millisecond clock at insertion. -/
structure CacheEntry where
  value : String
  timestamp : Nat
  deriving Repr, DecidableEq

/-- `Map.get`: the value stored under `k`, if present. -/
def mapGet (k : String) : List (String × CacheEntry) → Option CacheEntry
  | [] => none
  | (k2, v) :: rest => if k2 = k then some v else mapGet k rest

/-- `Map.has`. -/
def mapHas (k : String) (l : List (String × CacheEntry)) : Bool :=
  (mapGet k l).isSome

/-- `Map.delete`: removes the entry under `k` (keys are unique in a `Map`,
so removing the first occurrence is exact) and reports whether it existed. -/
def mapDelete (k : String) : List (String × CacheEntry) → Bool × List (String × CacheEntry)
  | [] => (false, [])
  | (k2, v) :: rest =>
    if k2 = k then (true, rest)
    else
      let r := mapDelete k rest
      (r.1, (k2, v) :: r.2)

/-- `Map.set`: updates in place when the key is present (keeping its
position), otherwise appends at the end (most-recently-inserted). -/
def mapSet (k : String) (v : CacheEntry) : List (String × CacheEntry) → List (String × CacheEntry)
  | [] => [(k, v)]
  | (k2, v2) :: rest =>
    if k2 = k then (k, v) :: rest else (k2, v2) :: mapSet k v rest

/-! ## String splitting on a colon, as JavaScript `String.split(":")` -/

/-- Auxiliary splitter: `acc` holds the (reversed) characters of the current
segment. -/
def splitColonAux : List Char → List Char → List String
  | [], acc => [String.mk acc.reverse]
  | c :: cs, acc =>
    if c = ':' then String.mk acc.reverse :: splitColonAux cs []
    else splitColonAux cs (c :: acc)

/-- JavaScript `s.split(":")` (single-character separator, no limit). -/
def splitColon (s : String) : List String :=
  splitColonAux s.data []

/-! ## LRUCache state and operations (`src/lru-cache.ts`) -/

/-- The mutable state of an `LRUCache` instance. -/
structure LRUCache where
  maxSize : Nat
  ttlMs : Nat
  entries : List (String × CacheEntry)
  hits : Nat
  misses : Nat
  deriving Repr, DecidableEq

/-- The constructor `new LRUCache(maxSize, ttlSeconds)`. -/
def mkLRUCache (maxSize ttlSeconds : Nat) : LRUCache :=
  { maxSize := maxSize, ttlMs := ttlSeconds * 1000, entries := [], hits := 0, misses := 0 }

/-- `LRUCache.get(key)` at clock `now`: TTL check, move-to-end on hit,
hit/miss accounting.  `now - entry.timestamp` is truncated subtraction; for
the `age > ttlMs` comparison this agrees with JavaScript, where a negative
age also fails the comparison. -/
def LRUCache.get (c : LRUCache) (now : Nat) (key : String) : Option String × LRUCache :=
  match mapGet key c.entries with
  | none => (none, { c with misses := c.misses + 1 })
  | some entry =>
    if now - entry.timestamp > c.ttlMs then
      (none, { c with entries := (mapDelete key c.entries).2, misses := c.misses + 1 })
    else
      (some entry.value,
        { c with
          entries := mapSet key entry (mapDelete key c.entries).2,
          hits := c.hits + 1 })

/-- `LRUCache.set(key, value)` at clock `now`: delete-then-append, then
evict the oldest entry if over capacity.  The source guards the eviction
with the truthiness test `if (oldestKey)`, which is false for the empty
string, so an oldest key `""` is never evicted. -/
def LRUCache.set (c : LRUCache) (now : Nat) (key value : String) : LRUCache :=
  let l0 := if mapHas key c.entries then (mapDelete key c.entries).2 else c.entries
  let l1 := mapSet key { value := value, timestamp := now } l0
  if l1.length > c.maxSize then
    match l1.head? with
    | some (oldestKey, _) =>
      if oldestKey = "" then { c with entries := l1 }
      else { c with entries := (mapDelete oldestKey l1).2 }
    | none => { c with entries := l1 }
  else
    { c with entries := l1 }

/-- The segment loop of `LRUCache.invalidate`: a pattern part list matches a
key part list when every pattern part has a corresponding key part that is
either equal to it or matched by the literal `"*"`; key parts beyond the
length of the pattern are not examined. -/
def partsMatch : List String → List String → Bool
  | [], _ => true
  | _ :: _, [] => false
  | p :: ps, k :: ks =>
    if p = "*" then partsMatch ps ks
    else if k = p then partsMatch ps ks
    else false

/-- `LRUCache.invalidate(pattern)`: returns the number of removed entries
and the new state. -/
def LRUCache.invalidate (c : LRUCache) (pattern : String) : Nat × LRUCache :=
  if pattern = "*" then
    (c.entries.length, { c with entries := [] })
  else
    let patternParts := splitColon pattern
    let keysToDelete :=
      (c.entries.filter (fun e => partsMatch patternParts (splitColon e.1))).map Prod.fst
    let newEntries := keysToDelete.foldl (fun l k => (mapDelete k l).2) c.entries
    (keysToDelete.length, { c with entries := newEntries })

/-- `LRUCache.has(key)` at clock `now`: expiry-checked presence; removes an
expired entry; never touches the hit/miss counters. -/
def LRUCache.has (c : LRUCache) (now : Nat) (key : String) : Bool × LRUCache :=
  match mapGet key c.entries with
  | none => (false, c)
  | some entry =>
    if now - entry.timestamp > c.ttlMs then
      (false, { c with entries := (mapDelete key c.entries).2 })
    else
      (true, c)

/-- `LRUCache.delete(key)`: raw `Map.delete`, no expiry check, no counter
changes. -/
def LRUCache.delete (c : LRUCache) (key : String) : Bool × LRUCache :=
  let r := mapDelete key c.entries
  (r.1, { c with entries := r.2 })

/-- `LRUCache.clear()`. -/
def LRUCache.clear (c : LRUCache) : LRUCache :=
  { c with entries := [] }

/-- The statistics record returned by `LRUCache.getStats()`.  The source
computes `hitRate` with machine floats; the embedding uses exact rationals
for the same expression. -/
structure LRUCacheStats where
  size : Nat
  maxSize : Nat
  hits : Nat
  misses : Nat
  hitRate : ℚ
  deriving Repr, DecidableEq

/-- `LRUCache.getStats()`. -/
def LRUCache.getStats (c : LRUCache) : LRUCacheStats :=
  { size := c.entries.length
    maxSize := c.maxSize
    hits := c.hits
    misses := c.misses
    hitRate := if c.hits + c.misses > 0 then (c.hits : ℚ) / ((c.hits : ℚ) + (c.misses : ℚ)) * 100 else 0 }

/-- One call against the public `LRUCache` interface, with the `Date.now()`
clock value observed by the time-dependent operations. -/
inductive CacheOp where
  | get (now : Nat) (key : String)
  | set (now : Nat) (key value : String)
  | has (now : Nat) (key : String)
  | del (key : String)
  | clear
  | invalidate (pattern : String)
  deriving Repr, DecidableEq

/-- State after one operation (return values discarded). -/
def applyOp (c : LRUCache) : CacheOp → LRUCache
  | .get now key => (c.get now key).2
  | .set now key value => c.set now key value
  | .has now key => (c.has now key).2
  | .del key => (c.delete key).2
  | .clear => c.clear
  | .invalidate pattern => (c.invalidate pattern).2

/-- State after a sequence of operations. -/
def runOps (c : LRUCache) (ops : List CacheOp) : LRUCache :=
  ops.foldl applyOp c

example : splitColon "a:b:c" = ["a", "b", "c"] := by decide
example : splitColon "" = [""] := by decide
example : splitColon ":" = ["", ""] := by decide

/-! ## Error classes (`src/types.ts`)

The TypeScript errors are distinguished by class: plain `Error` (and
`TypeError`) for empty/too-long/format failures, `SecurityError` for the
dangerous-character and path-traversal checks, `InvalidConfigError` for
parse/schema failures, `ConfigNotFoundError` for missing files.  Each
carries its message string. -/

inductive JSError where
  | jsError (msg : String)
  | typeError (msg : String)
  | securityError (msg : String)
  | invalidConfigError (msg : String)
  | configNotFoundError (msg : String)
  deriving Repr, DecidableEq

deriving instance DecidableEq for Except

/-- Character-list test: the second list starts with the first. -/
def leadsWith : List Char → List Char → Bool
  | [], _ => true
  | _ :: _, [] => false
  | a :: as, b :: bs => a = b && leadsWith as bs

/-- JavaScript `s.includes(sub)` on character lists. -/
def hasSubstring (sub : List Char) : List Char → Bool
  | [] => sub.isEmpty
  | c :: cs => leadsWith sub (c :: cs) || hasSubstring sub cs

/-- The dangerous-character set of `src/yaml-loader.ts` (the last entry is
the backtick, written with an escape). -/
def dangerousChars : List String := ["/", "\\", "..", "~", "$", "\x60"]

/-- The test `dangerousChars.some((char) => s.includes(char))`. -/
def containsDangerous (s : String) : Bool :=
  dangerousChars.any (fun d => hasSubstring d.data s.data)

def isLowerAlpha (c : Char) : Bool := 'a' ≤ c && c ≤ 'z'

def isUpperAlpha (c : Char) : Bool := 'A' ≤ c && c ≤ 'Z'

def isDigitChar (c : Char) : Bool := '0' ≤ c && c ≤ '9'

/-- Regular expression `VALID_MODULE_PATTERN` from `src/types.ts`:
`^(_default|[a-z][a-z0-9_]{0,63})$`. -/
def validModulePattern (s : String) : Bool :=
  s = "_default" ||
    (match s.data with
     | [] => false
     | c :: cs =>
       isLowerAlpha c && cs.length ≤ 63 &&
         cs.all (fun d => isLowerAlpha d || isDigitChar d || d = '_'))

/-- Regular expression `VALID_PROFILE_PATTERN`:
`^(_base[a-z0-9_]*|[a-z][a-z0-9_]{0,63})$`. -/
def validProfilePattern (s : String) : Bool :=
  (leadsWith "_base".data s.data &&
    (s.data.drop 5).all (fun d => isLowerAlpha d || isDigitChar d || d = '_')) ||
  (match s.data with
   | [] => false
   | c :: cs =>
     isLowerAlpha c && cs.length ≤ 63 &&
       cs.all (fun d => isLowerAlpha d || isDigitChar d || d = '_'))

/-- Regular expression `VALID_SCOPE_PATTERN`:
`^(_default|[a-z][a-z0-9_-]{0,63})$`. -/
def validScopePattern (s : String) : Bool :=
  s = "_default" ||
    (match s.data with
     | [] => false
     | c :: cs =>
       isLowerAlpha c && cs.length ≤ 63 &&
         cs.all (fun d => isLowerAlpha d || isDigitChar d || d = '_' || d = '-'))

/-- Regular expression `VALID_USER_ID_PATTERN`: `^[a-zA-Z0-9_-]{1,64}$`. -/
def validUserIdPattern (s : String) : Bool :=
  !s.data.isEmpty && s.length ≤ 64 &&
    s.data.all (fun d => isLowerAlpha d || isUpperAlpha d || isDigitChar d || d = '_' || d = '-')

/-! ## Validators (`src/yaml-loader.ts`)

String length in JavaScript counts UTF-16 units; the embedding counts
characters, which agrees on the ASCII identifiers these validators accept
or reject.  Apostrophes inside the original message text are written with
the escape `\x27`. -/

/-- Function `validateModule`. -/
def validateModule (module : String) : Except JSError Unit :=
  if module = "" then .error (.jsError "Module name cannot be empty")
  else if module.length > 64 then
    .error (.jsError ("Module name too long: " ++ toString module.length ++ " > 64"))
  else if containsDangerous module then
    .error (.securityError ("Invalid characters in module: " ++ module))
  else if validModulePattern module then .ok ()
  else
    .error (.jsError ("Invalid module format: " ++ module ++
      ". Must be \x27_default\x27 or start with lowercase letter and contain only lowercase letters, numbers, and underscores"))

/-- Function `validateProfile`. -/
def validateProfile (profile : String) : Except JSError Unit :=
  if profile = "" then .error (.jsError "Profile name cannot be empty")
  else if profile.length > 64 then
    .error (.jsError ("Profile name too long: " ++ toString profile.length ++ " > 64"))
  else if containsDangerous profile then
    .error (.securityError ("Invalid characters in profile: " ++ profile))
  else if validProfilePattern profile then .ok ()
  else
    .error (.jsError ("Invalid profile format: " ++ profile ++
      ". Must be \x27_base*\x27 or start with lowercase letter and contain only lowercase letters, numbers, and underscores"))

/-- Function `validateScope`. -/
def validateScope (scope : String) : Except JSError Unit :=
  if scope = "" then .error (.jsError "Scope name cannot be empty")
  else if scope.length > 64 then
    .error (.jsError ("Scope name too long: " ++ toString scope.length ++ " > 64"))
  else if containsDangerous scope then
    .error (.securityError ("Invalid characters in scope: " ++ scope))
  else if validScopePattern scope then .ok ()
  else
    .error (.jsError ("Invalid scope format: " ++ scope ++
      ". Must be \x27_default\x27 or start with lowercase letter and contain only lowercase letters, numbers, underscores, and hyphens"))

/-- Function `validateUserId`: a total Boolean predicate, never a raised
error.  The TypeScript parameter also allows `undefined`, which like `""`
is falsy and yields `false`; both call sites in `src/config-loader.ts`
substitute `"_"` beforehand, so the embedding takes a `String`. -/
def validateUserId (userId : String) : Bool :=
  if userId = "" then false
  else if userId.length > 64 then false
  else if containsDangerous userId then false
  else validUserIdPattern userId

/-- Function `validateVersion`.  Versions are embedded as `Int`, so the
`Number.isInteger` test holds by construction; the range check
`MIN_VERSION = 1`, `MAX_VERSION = 9999` remains. -/
def validateVersion (version : Int) : Except JSError Unit :=
  if version < 1 ∨ version > 9999 then
    .error (.jsError ("Version " ++ toString version ++ " out of valid range [1, 9999]"))
  else .ok ()

/-! ## Canonical identifiers and shared-tier keys (`src/config-loader.ts`) -/

/-- Method `buildConfigId`: `{scope}:{module}:{userId}:{profile}:v{version}`. -/
def buildConfigId (scope module userId profile : String) (version : Int) : String :=
  scope ++ ":" ++ module ++ ":" ++ userId ++ ":" ++ profile ++ ":v" ++ toString version

/-- Method `buildRedisKey`: the constant `REDIS_KEY_PREFIX = "llm:"` in
front of the canonical identifier.  Both `tryLoadFromRedis` and
`tryStoreInRedis` address the shared tier with exactly this key. -/
def buildRedisKey (configId : String) : String :=
  "llm:" ++ configId

/-- Method `buildExperimentKey`: the constant
`EXPERIMENT_KEY_PREFIX = "experiment:llm:"` followed by
`{module}:{profile}`. -/
def buildExperimentKey (module profile : String) : String :=
  "experiment:llm:" ++ module ++ ":" ++ profile

/-! ## Cascade generation and resolution (`src/config-loader.ts`) -/

/-- A cascade step (interface `CascadeStep`). -/
structure CascadeStep where
  scope : String
  module : String
  userId : String
  profile : String
  version : Int
  deriving Repr, DecidableEq

/-- Method `generateCascadeSteps`: the five conditional pushes, in source
order. -/
def generateCascadeSteps (scope module userId profile : String) (version : Int) :
    List CascadeStep :=
  (if userId ≠ "_" then
    [{ scope := scope, module := module, userId := userId, profile := profile, version := version }]
   else []) ++
  [{ scope := scope, module := module, userId := "_", profile := profile, version := version }] ++
  (if module ≠ "_default" then
    [{ scope := scope, module := "_default", userId := "_", profile := profile, version := version }]
   else []) ++
  (if scope ≠ "_default" then
    [{ scope := "_default", module := "_default", userId := "_", profile := profile, version := version }]
   else []) ++
  (if profile ≠ "_base" ∨ version ≠ 1 then
    [{ scope := "_default", module := "_default", userId := "_", profile := "_base", version := 1 }]
   else [])

/-- Canonical identifier of a cascade step. -/
def stepConfigId (s : CascadeStep) : String :=
  buildConfigId s.scope s.module s.userId s.profile s.version

/-- The part of a validated configuration document relevant to resolution
(the full `LLMConfig` carries further optional parameter bags that the
cascade only copies through). -/
structure FileConfig where
  provider : String
  model : String
  deriving Repr, DecidableEq

/-- A `ResolvedLLMConfig`: the loaded document plus the coordinate of the
cascade step that satisfied the request. -/
structure ResolvedConfig where
  config : FileConfig
  configId : String
  scope : String
  module : String
  profile : String
  version : Int
  deriving Repr, DecidableEq

/-- JavaScript `Array.join(sep)`. -/
def joinSep (sep : String) : List String → String
  | [] => ""
  | [x] => x
  | x :: y :: rest => x ++ sep ++ joinSep sep (y :: rest)

/-- The message of the final `ConfigNotFoundError` raised by
`resolveWithCascade` when every cascade step misses. -/
def cascadeNotFoundMessage (originalConfigId : String) (steps : List CascadeStep) : String :=
  "Config not found after cascade resolution: " ++ originalConfigId ++ ". Checked: " ++
    joinSep ", " (steps.map stepConfigId)

/-- The `for (const step of steps)` loop of `resolveWithCascade`.  The
file system is abstracted as `fs module profile version`, the outcome of
`loadConfigFromFile` for one step (`scope`/`userId` do not reach the file
system).  A `ConfigNotFoundError` outcome moves to the next step, any
other error is rethrown, and exhaustion raises the final
`ConfigNotFoundError`.  The rate-limited fallback warnings are log-only
side effects with no influence on the returned value and are not
embedded. -/
def cascadeLoop (fs : String → String → Int → Except JSError FileConfig)
    (originalConfigId : String) (allSteps : List CascadeStep) :
    List CascadeStep → Except JSError ResolvedConfig
  | [] => .error (.configNotFoundError (cascadeNotFoundMessage originalConfigId allSteps))
  | s :: rest =>
    match fs s.module s.profile s.version with
    | .ok config =>
      .ok { config := config, configId := stepConfigId s, scope := s.scope,
            module := s.module, profile := s.profile, version := s.version }
    | .error e =>
      match e with
      | .configNotFoundError _ => cascadeLoop fs originalConfigId allSteps rest
      | _ => .error e

/-- Method `resolveWithCascade`: validate the four hard components (a
validation failure is thrown before any step is tried), soft-normalize the
user id, then run the cascade loop. -/
def resolveWithCascade (fs : String → String → Int → Except JSError FileConfig)
    (scope module userId profile : String) (version : Int) :
    Except JSError ResolvedConfig :=
  match validateScope scope with
  | .error e => .error e
  | .ok _ =>
  match validateModule module with
  | .error e => .error e
  | .ok _ =>
  match validateProfile profile with
  | .error e => .error e
  | .ok _ =>
  match validateVersion version with
  | .error e => .error e
  | .ok _ =>
    let validUserId := if validateUserId userId then userId else "_"
    let steps := generateCascadeSteps scope module validUserId profile version
    cascadeLoop fs (buildConfigId scope module validUserId profile version) steps steps

/-! ## Experiment directives (`LLMConfigLoader.getExperimentConfig`)

The payload stored under the experiment key is a JSON document; its parse
result is embedded as a JavaScript value.  Numbers are split into those
`Number.isInteger` accepts (`jint`) and the rest (`jnumNonInt`); array
elements are irrelevant to the shape validation and are not tracked. -/

inductive JSValue where
  | jnull
  | jundefined
  | jbool (b : Bool)
  | jint (n : Int)
  | jnumNonInt
  | jstr (s : String)
  | jobj (fields : List (String × JSValue))
  | jarr (length : Nat)

/-- JavaScript `typeof`. -/
def typeofJS : JSValue → String
  | .jnull => "object"
  | .jundefined => "undefined"
  | .jbool _ => "boolean"
  | .jint _ => "number"
  | .jnumNonInt => "number"
  | .jstr _ => "string"
  | .jobj _ => "object"
  | .jarr _ => "object"

/-- Field lookup in an object literal (keys of a `JSON.parse` result are
unique). -/
def fieldLookup (name : String) : List (String × JSValue) → Option JSValue
  | [] => none
  | (k, v) :: rest => if k = name then some v else fieldLookup name rest

/-- JavaScript property access `v.name`, `undefined` when absent (only
reached behind the `typeof v === "object"` and non-`null` guards). -/
def getField (name : String) : JSValue → JSValue
  | .jobj fields => (fieldLookup name fields).getD .jundefined
  | _ => .jundefined

/-- JavaScript `Number.isInteger`. -/
def isIntegerJS : JSValue → Bool
  | .jint _ => true
  | _ => false

def isJSNull : JSValue → Bool
  | .jnull => true
  | _ => false

/-- Numeric value of an integer number, `0` otherwise (only consulted
behind the `Number.isInteger` guard). -/
def jsNumValue : JSValue → Int
  | .jint n => n
  | _ => 0

/-- The strict shape validation of the experiment payload, the negation of
the rejection condition in `getExperimentConfig`: an object, not `null`,
Boolean `enabled`, integer `version >= 1`, string `enabledAt`. -/
def validExperimentPayload (v : JSValue) : Bool :=
  typeofJS v == "object" && !isJSNull v &&
  typeofJS (getField "enabled" v) == "boolean" &&
  isIntegerJS (getField "version" v) &&
  !(decide (jsNumValue (getField "version" v) < 1)) &&
  typeofJS (getField "enabledAt" v) == "string"

/-- The value of `parsed.enabled` after the shape validation. -/
def experimentEnabled (v : JSValue) : Bool :=
  match getField "enabled" v with
  | .jbool b => b
  | _ => false

/-- The value of `parsed.version` after the shape validation. -/
def experimentVersion (v : JSValue) : Int :=
  jsNumValue (getField "version" v)

/-- The value of `parsed.enabledAt` after the shape validation. -/
def experimentEnabledAt (v : JSValue) : String :=
  match getField "enabledAt" v with
  | .jstr s => s
  | _ => ""

/-- The interface `ExperimentConfig` of `src/types.ts` (the removed
`split` field is ignored by the loader). -/
structure ExperimentConfig where
  enabled : Bool
  version : Int
  enabledAt : String

/-- The cast `parsed as ExperimentConfig` restricted to the validated
fields. -/
def experimentOf (v : JSValue) : ExperimentConfig :=
  { enabled := experimentEnabled v
    version := experimentVersion v
    enabledAt := experimentEnabledAt v }

/-- Outcome of the shared-tier read `redisClient.get(experimentKey)`
together with the subsequent `JSON.parse`: the read may reject
(`throws`), return `null` or `""` (both falsy), or return content whose
parse either raises (`Except.error`) or yields a value. -/
inductive RedisFetch where
  | throws
  | nullContent
  | emptyContent
  | content (parsed : Except Unit JSValue)

/-- Method `getExperimentConfig`: `null` whenever the shared tier is
unavailable, the key is absent, the payload does not parse, the shape
validation fails, or the directive is disabled; the whole body sits in a
`try`/`catch` that converts any raise into `null`. -/
def getExperimentConfig (redisAvailable hasClient : Bool) (fetch : RedisFetch) :
    Option ExperimentConfig :=
  if !redisAvailable || !hasClient then none
  else
    match fetch with
    | .throws => none
    | .nullContent => none
    | .emptyContent => none
    | .content (.error _) => none
    | .content (.ok parsed) =>
      if !validExperimentPayload parsed then none
      else if !experimentEnabled parsed then none
      else some (experimentOf parsed)

/-! ## Tier dispatch of `LLMConfigLoader.loadConfig` -/

/-- The `LoadConfigOptions` bag (optional fields defaulted inside
`loadConfig`). -/
structure LoadConfigOptions where
  module : String
  profile : String
  scope : Option String := none
  userId : Option String := none
  version : Option Int := none
  forceRefresh : Option Bool := none

/-- Which tier serves a `loadConfig` call. -/
inductive ServedFrom where
  | lruTier
  | redisTier
  | cascadeTier
  deriving Repr, DecidableEq

/-- The decision skeleton of `loadConfig` (lines 290–347 of
`src/config-loader.ts`): defaulting, user-id normalization, the experiment
check that may rewrite `version` and force `forceRefresh`, then the
tier-1/tier-2/tier-3 dispatch on the canonical identifier.  The two cache
tiers are abstracted as lookup functions from canonical identifier to
optional serialized content; the returned triple is the serving tier, the
canonical identifier used for the lookups, and the effective version. -/
def loadConfigPlan (defaultScope : String) (redisAvailable hasClient : Bool)
    (expFetch : RedisFetch) (lruGet redisGet : String → Option String)
    (opts : LoadConfigOptions) : ServedFrom × String × Int :=
  let scope := opts.scope.getD defaultScope
  let version0 := opts.version.getD 1
  let forceRefresh0 := opts.forceRefresh.getD false
  let rawUserId := opts.userId.getD "_"
  let userId := if validateUserId rawUserId then rawUserId else "_"
  let exp := getExperimentConfig redisAvailable hasClient expFetch
  let version := match exp with
    | some e => e.version
    | none => version0
  let forceRefresh := match exp with
    | some _ => true
    | none => forceRefresh0
  let configId := buildConfigId scope opts.module userId opts.profile version
  if !forceRefresh && (lruGet configId).isSome then
    (.lruTier, configId, version)
  else if !forceRefresh && redisAvailable && hasClient && (redisGet configId).isSome then
    (.redisTier, configId, version)
  else
    (.cascadeTier, configId, version)

/-! ## Concrete states used by witnesses and counterexamples -/

/-- The three-key cache of the pattern-invalidation scenario. -/
def invalidateDemoCache : LRUCache :=
  (((mkLRUCache 10 21600).set 0 "a:b:c" "1").set 0 "a:x:c" "2").set 0 "d:b:c" "3"

/-- A 65-character module name made of slashes: over the length limit and
full of dangerous characters at the same time. -/
def longSlashModule : String :=
  String.mk (List.replicate 65 '/')

/-! ## Association-list lemmas

The cache states reachable through the public interface have pairwise
distinct keys (a JavaScript `Map` cannot hold duplicates), so the lemmas
about deletion take the key-distinctness as a hypothesis. -/

theorem mapGet_eq_none_of_forall {k : String} :
    ∀ {l : List (String × CacheEntry)}, (∀ e ∈ l, e.1 ≠ k) → mapGet k l = none := by
  intro l
  induction l with
  | nil => intro _; rfl
  | cons e rest ih =>
    intro h
    obtain ⟨k2, v⟩ := e
    have hne : k2 ≠ k := h (k2, v) (List.mem_cons_self _ _)
    simpa [mapGet, hne] using ih (fun e he => h e (List.mem_cons_of_mem _ he))

theorem mapDelete_fst_eq_true {k : String} :
    ∀ {l : List (String × CacheEntry)} {e : CacheEntry},
      mapGet k l = some e → (mapDelete k l).1 = true := by
  intro l
  induction l with
  | nil => intro e h; simp [mapGet] at h
  | cons p rest ih =>
    intro e h
    obtain ⟨k2, v⟩ := p
    by_cases hk : k2 = k
    · simp [mapDelete, hk]
    · simp [mapGet, hk] at h
      simpa [mapDelete, hk] using ih h

theorem mapDelete_snd_eq_filter {k : String} :
    ∀ {l : List (String × CacheEntry)}, (l.map Prod.fst).Nodup →
      (mapDelete k l).2 = l.filter (fun e => !(e.1 == k)) := by
  intro l
  induction l with
  | nil => intro _; rfl
  | cons p rest ih =>
    intro h
    obtain ⟨k2, v⟩ := p
    obtain ⟨hnotmem, hrest⟩ := List.nodup_cons.mp h
    by_cases hk : k2 = k
    · subst hk
      have : ∀ e ∈ rest, (!(e.1 == k2)) = true := by
        intro e he
        have hmem : e.1 ∈ rest.map Prod.fst := List.mem_map_of_mem Prod.fst he
        have hne : e.1 ≠ k2 := fun hkk => hnotmem (hkk ▸ hmem)
        simpa using hne
      simp [mapDelete, List.filter_eq_self.mpr this]
    · simpa [mapDelete, hk] using ih hrest

theorem mapGet_mapDelete_self {k : String} {l : List (String × CacheEntry)}
    (h : (l.map Prod.fst).Nodup) : mapGet k (mapDelete k l).2 = none := by
  rw [mapDelete_snd_eq_filter h]
  refine mapGet_eq_none_of_forall ?_
  intro e he
  have := (List.mem_filter.mp he).2
  simpa using this

theorem mapSet_eq_append {k : String} {v : CacheEntry} :
    ∀ {l : List (String × CacheEntry)}, mapGet k l = none → mapSet k v l = l ++ [(k, v)] := by
  intro l
  induction l with
  | nil => intro _; rfl
  | cons p rest ih =>
    intro h
    obtain ⟨k2, v2⟩ := p
    by_cases hk : k2 = k
    · simp [mapGet, hk] at h
    · simp [mapGet, hk] at h
      simpa [mapSet, hk] using ih h

theorem nodup_keys_filter {p : String × CacheEntry → Bool}
    {l : List (String × CacheEntry)} (h : (l.map Prod.fst).Nodup) :
    ((l.filter p).map Prod.fst).Nodup :=
  List.Nodup.sublist (List.Sublist.map Prod.fst (List.filter_sublist l)) h

theorem foldl_mapDelete_eq_filter :
    ∀ (ks : List String) (l : List (String × CacheEntry)), (l.map Prod.fst).Nodup →
      ks.foldl (fun acc k => (mapDelete k acc).2) l =
        l.filter (fun e => !(decide (e.1 ∈ ks))) := by
  intro ks
  induction ks with
  | nil => intro l _; simp
  | cons k ks ih =>
    intro l h
    have h1 : ((l.filter (fun e => !(e.1 == k))).map Prod.fst).Nodup := nodup_keys_filter h
    calc (k :: ks).foldl (fun acc k => (mapDelete k acc).2) l
        = ks.foldl (fun acc k => (mapDelete k acc).2) (l.filter (fun e => !(e.1 == k))) := by
          simp [mapDelete_snd_eq_filter h]
      _ = (l.filter (fun e => !(e.1 == k))).filter (fun e => !(decide (e.1 ∈ ks))) := ih _ h1
      _ = l.filter (fun e => !(decide (e.1 ∈ k :: ks))) := by
          rw [List.filter_filter]
          refine List.filter_congr ?_
          intro e _
          by_cases hek : e.1 = k <;> simp [List.mem_cons, Bool.and_comm, hek]

/-!
## Theorems
-/

/-- C1: for a request with `userId ≠ "_"`, `module ≠ "_default"`,
`scope ≠ "_default"` and `profile ≠ "_base"`, `generateCascadeSteps`
produces exactly the 5 candidates in the fixed order full-specific,
no-user, scope-wide `_default` module, global `_default` scope, ultimate
`_default`/`_base` v1; with `userId = "_"` and the rest unchanged exactly
the last 4; and for the request `("_default", "_default", "_", "_base", 1)`
exactly 1 candidate, the request itself. -/
theorem generateCascadeSteps_counts :
    (∀ scope module userId profile version,
       userId ≠ "_" → module ≠ "_default" → scope ≠ "_default" → profile ≠ "_base" →
       generateCascadeSteps scope module userId profile version =
         [⟨scope, module, userId, profile, version⟩,
          ⟨scope, module, "_", profile, version⟩,
          ⟨scope, "_default", "_", profile, version⟩,
          ⟨"_default", "_default", "_", profile, version⟩,
          ⟨"_default", "_default", "_", "_base", 1⟩]) ∧
    (∀ scope module profile version,
       module ≠ "_default" → scope ≠ "_default" → profile ≠ "_base" →
       generateCascadeSteps scope module "_" profile version =
         [⟨scope, module, "_", profile, version⟩,
          ⟨scope, "_default", "_", profile, version⟩,
          ⟨"_default", "_default", "_", profile, version⟩,
          ⟨"_default", "_default", "_", "_base", 1⟩]) ∧
    generateCascadeSteps "_default" "_default" "_" "_base" 1 =
      [⟨"_default", "_default", "_", "_base", 1⟩] := by
  refine ⟨?_, ?_, by decide⟩
  · intro scope module userId profile version h1 h2 h3 h4
    simp [generateCascadeSteps, h1, h2, h3, h4]
  · intro scope module profile version h2 h3 h4
    simp [generateCascadeSteps, h2, h3, h4]

/-- C1 witness: the three counts at concrete coordinates. -/
theorem generateCascadeSteps_counts_witness :
    ("u1" ≠ "_" ∧ "hrkg" ≠ "_default" ∧ "default" ≠ "_default" ∧ "extraction" ≠ "_base") ∧
    generateCascadeSteps "default" "hrkg" "u1" "extraction" 2 =
      [⟨"default", "hrkg", "u1", "extraction", 2⟩,
       ⟨"default", "hrkg", "_", "extraction", 2⟩,
       ⟨"default", "_default", "_", "extraction", 2⟩,
       ⟨"_default", "_default", "_", "extraction", 2⟩,
       ⟨"_default", "_default", "_", "_base", 1⟩] ∧
    generateCascadeSteps "default" "hrkg" "_" "extraction" 2 =
      [⟨"default", "hrkg", "_", "extraction", 2⟩,
       ⟨"default", "_default", "_", "extraction", 2⟩,
       ⟨"_default", "_default", "_", "extraction", 2⟩,
       ⟨"_default", "_default", "_", "_base", 1⟩] :=
  ⟨by decide,
   generateCascadeSteps_counts.1 "default" "hrkg" "u1" "extraction" 2
     (by decide) (by decide) (by decide) (by decide),
   generateCascadeSteps_counts.2.1 "default" "hrkg" "extraction" 2
     (by decide) (by decide) (by decide)⟩

/-- C8 counterexample: the shared-tier key of a resolved configuration
starts with `llm:`, not `cfg:`, and the experiment key starts with
`experiment:llm:`, not `experiment:cfg:`. -/
theorem sharedTierKey_not_cfg :
    buildRedisKey "default:hrkg:_:extraction:v1" ≠ "cfg:default:hrkg:_:extraction:v1" ∧
    buildExperimentKey "hrkg" "extraction" ≠ "experiment:cfg:hrkg:extraction" := by
  decide

/-- C8 amended: for every resolved configuration the shared-tier key is
exactly `llm:` followed by the canonical identifier
`{scope}:{module}:{userId}:{profile}:v{version}`, and every
experiment-directive lookup uses exactly `experiment:llm:{module}:{profile}`. -/
theorem sharedTierKey_format :
    (∀ scope module userId profile version,
       buildRedisKey (buildConfigId scope module userId profile version) =
         "llm:" ++ scope ++ ":" ++ module ++ ":" ++ userId ++ ":" ++ profile ++ ":v" ++
           toString version) ∧
    (∀ module profile,
       buildExperimentKey module profile = "experiment:llm:" ++ module ++ ":" ++ profile) := by
  constructor
  · intro scope module userId profile version
    simp [buildRedisKey, buildConfigId, String.append_assoc]
  · intro module profile
    simp [buildExperimentKey, String.append_assoc]

/-- C5: evaluation at the failing input.  With capacity 1, inserting the
key `""` and then the key `"a"` leaves two entries: the eviction of the
least-recently-used entry is skipped because the source guards it with the
truthiness test `if (oldestKey)`, which is false for the empty-string
key. -/
theorem lruSet_eviction_skipped_for_empty_key :
    (mkLRUCache 1 21600).maxSize = 1 ∧
    ((((mkLRUCache 1 21600).set 0 "" "v").set 1 "a" "w").entries.map Prod.fst = ["", "a"]) ∧
    (((mkLRUCache 1 21600).set 0 "" "v").set 1 "a" "w").entries.length = 2 := by
  decide

/-- C9: evaluation at the failing input.  Starting from a fresh cache of
capacity 1, the operation sequence `set("", v); set("a", w)` leaves the
cache holding 2 entries, exceeding `maxSize`. -/
theorem lruOps_size_can_exceed_maxSize :
    (mkLRUCache 1 21600).maxSize = 1 ∧
    (runOps (mkLRUCache 1 21600)
      [CacheOp.set 0 "" "v", CacheOp.set 1 "a" "w"]).entries.length = 2 := by
  decide

/-- C2 counterexample: with keys `a:b:c`, `a:x:c`, `d:b:c` present, the
two-segment pattern `a:b` matches the three-segment key `a:b:c` by its
leading segments, so `invalidate("a:b")` removes that key and returns 1,
not 0. -/
theorem invalidate_short_pattern_matches :
    (invalidateDemoCache.invalidate "a:b").1 = 1 ∧
    mapHas "a:b:c" (invalidateDemoCache.invalidate "a:b").2.entries = false ∧
    (invalidateDemoCache.invalidate "a:b").2.entries.map Prod.fst = ["a:x:c", "d:b:c"] := by
  decide

/-- C2 amended: `invalidate("*")` removes every entry; for any other
pattern, a key is removed exactly when its leading segments match the
pattern segment-by-segment (`"*"` matching any single present segment), so
a pattern with fewer segments than a key matches the key by its leading
segments; the return value always equals the number of entries removed.
On the keys `a:b:c`, `a:x:c`, `d:b:c`: pattern `a:*:c` removes exactly the
first two, `*` removes all three, and the two-segment `a:b` removes
exactly `a:b:c` (returning 1, not 0). -/
theorem invalidate_pattern_semantics :
    (∀ c : LRUCache,
       (c.invalidate "*").1 = c.entries.length ∧ (c.invalidate "*").2.entries = []) ∧
    (∀ (c : LRUCache) (pattern : String), pattern ≠ "*" →
       (c.entries.map Prod.fst).Nodup →
       (c.invalidate pattern).2.entries =
         c.entries.filter (fun e => !partsMatch (splitColon pattern) (splitColon e.1)) ∧
       (c.invalidate pattern).1 =
         (c.entries.filter (fun e => partsMatch (splitColon pattern) (splitColon e.1))).length) ∧
    ((invalidateDemoCache.invalidate "a:*:c").1 = 2 ∧
     (invalidateDemoCache.invalidate "a:*:c").2.entries.map Prod.fst = ["d:b:c"] ∧
     (invalidateDemoCache.invalidate "*").1 = 3 ∧
     (invalidateDemoCache.invalidate "*").2.entries = [] ∧
     (invalidateDemoCache.invalidate "a:b").1 = 1 ∧
     (invalidateDemoCache.invalidate "a:b").2.entries.map Prod.fst = ["a:x:c", "d:b:c"]) := by
  refine ⟨?_, ?_, by decide⟩
  · intro c
    constructor <;> simp [LRUCache.invalidate]
  · intro c pattern hp hnodup
    have hmem : ∀ e ∈ c.entries,
        decide (e.1 ∈ (c.entries.filter
            (fun e => partsMatch (splitColon pattern) (splitColon e.1))).map Prod.fst) =
          partsMatch (splitColon pattern) (splitColon e.1) := by
      intro e he
      cases hqe : partsMatch (splitColon pattern) (splitColon e.1) with
      | false =>
        simp only [decide_eq_false_iff_not]
        intro hmm
        obtain ⟨e2, he2, heq⟩ := List.mem_map.mp hmm
        obtain ⟨he2l, hqe2⟩ := List.mem_filter.mp he2
        have he2e : e2 = e := List.inj_on_of_nodup_map hnodup he2l he heq
        subst he2e
        simp [hqe] at hqe2
      | true =>
        have : e.1 ∈ (c.entries.filter
            (fun e => partsMatch (splitColon pattern) (splitColon e.1))).map Prod.fst :=
          List.mem_map_of_mem Prod.fst (List.mem_filter.mpr ⟨he, hqe⟩)
        simp [this]
    constructor
    · simp only [LRUCache.invalidate, if_neg hp]
      rw [foldl_mapDelete_eq_filter _ _ hnodup]
      refine List.filter_congr ?_
      intro e he
      rw [hmem e he]
    · simp only [LRUCache.invalidate, if_neg hp]
      simp [List.length_map]

/-- C2 witness: the amended pattern semantics at the three-key cache and
the short pattern `a:b`. -/
theorem invalidate_pattern_semantics_witness :
    ("a:b" ≠ "*" ∧ (invalidateDemoCache.entries.map Prod.fst).Nodup) ∧
    (invalidateDemoCache.invalidate "a:b").2.entries =
      invalidateDemoCache.entries.filter
        (fun e => !partsMatch (splitColon "a:b") (splitColon e.1)) ∧
    (invalidateDemoCache.invalidate "a:b").1 =
      (invalidateDemoCache.entries.filter
        (fun e => partsMatch (splitColon "a:b") (splitColon e.1))).length :=
  ⟨⟨by decide, by decide⟩,
   (invalidate_pattern_semantics.2.1 invalidateDemoCache "a:b" (by decide) (by decide)).1,
   (invalidate_pattern_semantics.2.1 invalidateDemoCache "a:b" (by decide) (by decide)).2⟩

/-- The one-entry cache (key `"k"`, value `"v"`, inserted at clock 0,
TTL 1 second) used to witness the TTL claims. -/
def ttlDemoCache : LRUCache :=
  (mkLRUCache 10 1).set 0 "k" "v"

/-- C6: a `get` on a present entry whose age strictly exceeds the TTL
returns absent, removes the entry and increments the miss counter; a `get`
within the TTL returns the stored value, increments the hit counter and
moves the entry to the most-recently-used (last) position. -/
theorem lruGet_ttl (c : LRUCache) (key : String) (entry : CacheEntry)
    (hget : mapGet key c.entries = some entry)
    (hnodup : (c.entries.map Prod.fst).Nodup) :
    (∀ now, now - entry.timestamp > c.ttlMs →
       (c.get now key).1 = none ∧
       mapGet key (c.get now key).2.entries = none ∧
       (c.get now key).2.misses = c.misses + 1 ∧
       (c.get now key).2.hits = c.hits) ∧
    (∀ now, now - entry.timestamp ≤ c.ttlMs →
       (c.get now key).1 = some entry.value ∧
       (c.get now key).2.entries = (mapDelete key c.entries).2 ++ [(key, entry)] ∧
       (c.get now key).2.hits = c.hits + 1 ∧
       (c.get now key).2.misses = c.misses) := by
  constructor
  · intro now hage
    refine ⟨?_, ?_, ?_, ?_⟩ <;>
      simp [LRUCache.get, hget, hage, mapGet_mapDelete_self hnodup]
  · intro now hage
    have hnot : ¬(now - entry.timestamp > c.ttlMs) := not_lt.mpr hage
    refine ⟨?_, ?_, ?_, ?_⟩ <;>
      simp [LRUCache.get, hget, hnot, mapSet_eq_append (mapGet_mapDelete_self hnodup)]

/-- C6 witness: the TTL behavior on a concrete one-entry cache, one
millisecond past and one millisecond before expiry. -/
theorem lruGet_ttl_witness :
    (mapGet "k" ttlDemoCache.entries = some ⟨"v", 0⟩ ∧
     (ttlDemoCache.entries.map Prod.fst).Nodup ∧
     1001 - 0 > ttlDemoCache.ttlMs ∧ 999 - 0 ≤ ttlDemoCache.ttlMs) ∧
    ((ttlDemoCache.get 1001 "k").1 = none ∧
     mapGet "k" (ttlDemoCache.get 1001 "k").2.entries = none ∧
     (ttlDemoCache.get 1001 "k").2.misses = ttlDemoCache.misses + 1 ∧
     (ttlDemoCache.get 1001 "k").2.hits = ttlDemoCache.hits) ∧
    ((ttlDemoCache.get 999 "k").1 = some "v" ∧
     (ttlDemoCache.get 999 "k").2.entries =
       (mapDelete "k" ttlDemoCache.entries).2 ++ [("k", ⟨"v", 0⟩)] ∧
     (ttlDemoCache.get 999 "k").2.hits = ttlDemoCache.hits + 1 ∧
     (ttlDemoCache.get 999 "k").2.misses = ttlDemoCache.misses) :=
  ⟨⟨by decide, by decide, by decide, by decide⟩,
   (lruGet_ttl ttlDemoCache "k" ⟨"v", 0⟩ (by decide) (by decide)).1 1001 (by decide),
   (lruGet_ttl ttlDemoCache "k" ⟨"v", 0⟩ (by decide) (by decide)).2 999 (by decide)⟩

/-- C10: on an entry that is present but older than the TTL, `delete`
returns `true` (raw presence, no expiry check) while `has` returns `false`
and removes the entry; neither `has` nor `delete` changes the hit or miss
counters reported by `getStats`. -/
theorem lruHasDelete_raw (c : LRUCache) (key : String) (entry : CacheEntry) (now : Nat)
    (hget : mapGet key c.entries = some entry)
    (hnodup : (c.entries.map Prod.fst).Nodup)
    (hexp : now - entry.timestamp > c.ttlMs) :
    (c.delete key).1 = true ∧
    (c.has now key).1 = false ∧
    mapGet key (c.has now key).2.entries = none ∧
    (c.has now key).2.getStats.hits = c.getStats.hits ∧
    (c.has now key).2.getStats.misses = c.getStats.misses ∧
    (c.delete key).2.getStats.hits = c.getStats.hits ∧
    (c.delete key).2.getStats.misses = c.getStats.misses := by
  refine ⟨mapDelete_fst_eq_true hget, ?_, ?_, ?_, ?_, ?_, ?_⟩ <;>
    simp [LRUCache.has, LRUCache.delete, LRUCache.getStats, hget, hexp,
      mapGet_mapDelete_self hnodup]

/-- C10 witness: `delete` and `has` on the expired concrete entry. -/
theorem lruHasDelete_raw_witness :
    (mapGet "k" ttlDemoCache.entries = some ⟨"v", 0⟩ ∧
     (ttlDemoCache.entries.map Prod.fst).Nodup ∧
     1001 - 0 > ttlDemoCache.ttlMs) ∧
    (ttlDemoCache.delete "k").1 = true ∧
    (ttlDemoCache.has 1001 "k").1 = false ∧
    mapGet "k" (ttlDemoCache.has 1001 "k").2.entries = none ∧
    (ttlDemoCache.has 1001 "k").2.getStats.hits = ttlDemoCache.getStats.hits ∧
    (ttlDemoCache.has 1001 "k").2.getStats.misses = ttlDemoCache.getStats.misses ∧
    (ttlDemoCache.delete "k").2.getStats.hits = ttlDemoCache.getStats.hits ∧
    (ttlDemoCache.delete "k").2.getStats.misses = ttlDemoCache.getStats.misses :=
  ⟨⟨by decide, by decide, by decide⟩,
   lruHasDelete_raw ttlDemoCache "k" ⟨"v", 0⟩ 1001 (by decide) (by decide) (by decide)⟩

/-- An absent experiment key yields no override, whatever the availability
flags. -/
theorem getExperimentConfig_nullContent (ra hc : Bool) :
    getExperimentConfig ra hc .nullContent = none := by
  cases ra <;> cases hc <;> rfl

/-- C3: when the shared tier returns an experiment directive that passes
the strict shape validation with `enabled = true`, `loadConfig` replaces
the requested version by the directive version and serves the call from
the file cascade, skipping both cache-tier lookups regardless of their
contents; a directive that is absent, unparseable, shape-invalid or
disabled is treated as no override and never fails the call (the plan
coincides with the absent-key plan). -/
theorem loadConfig_experiment_override :
    (∀ defaultScope lruGet redisGet opts payload,
       validExperimentPayload payload = true →
       experimentEnabled payload = true →
       loadConfigPlan defaultScope true true (.content (.ok payload)) lruGet redisGet opts =
         (.cascadeTier,
          buildConfigId (opts.scope.getD defaultScope) opts.module
            (if validateUserId (opts.userId.getD "_") then opts.userId.getD "_" else "_")
            opts.profile (experimentVersion payload),
          experimentVersion payload)) ∧
    (∀ ra hc payload, validExperimentPayload payload = false →
       getExperimentConfig ra hc (.content (.ok payload)) = none) ∧
    (∀ ra hc payload, experimentEnabled payload = false →
       getExperimentConfig ra hc (.content (.ok payload)) = none) ∧
    (∀ ra hc, getExperimentConfig ra hc .nullContent = none ∧
       getExperimentConfig ra hc .emptyContent = none ∧
       getExperimentConfig ra hc .throws = none ∧
       ∀ u, getExperimentConfig ra hc (.content (.error u)) = none) ∧
    (∀ defaultScope ra hc fetch lruGet redisGet opts,
       getExperimentConfig ra hc fetch = none →
       loadConfigPlan defaultScope ra hc fetch lruGet redisGet opts =
         loadConfigPlan defaultScope ra hc .nullContent lruGet redisGet opts) := by
  refine ⟨?_, ?_, ?_, ?_, ?_⟩
  · intro defaultScope lruGet redisGet opts payload hvalid hen
    simp [loadConfigPlan, getExperimentConfig, hvalid, hen, experimentOf]
  · intro ra hc payload hval
    cases ra <;> cases hc <;> simp [getExperimentConfig, hval]
  · intro ra hc payload hen
    cases hval : validExperimentPayload payload <;>
      cases ra <;> cases hc <;> simp [getExperimentConfig, hval, hen]
  · intro ra hc
    refine ⟨getExperimentConfig_nullContent ra hc, ?_, ?_, ?_⟩ <;>
      first
        | (cases ra <;> cases hc <;> rfl)
        | (intro u; cases ra <;> cases hc <;> rfl)
  · intro defaultScope ra hc fetch lruGet redisGet opts h
    simp [loadConfigPlan, h, getExperimentConfig_nullContent]

/-- The enabled experiment directive used by the C3 witness. -/
def experimentPayloadDemo : JSValue :=
  .jobj [("enabled", .jbool true), ("version", .jint 2),
         ("enabledAt", .jstr "2026-01-01T00:00:00Z")]

/-- The request options used by the C3 witness. -/
def loadOptsDemo : LoadConfigOptions :=
  { module := "hrkg", profile := "extraction" }

/-- C3 witness: with both cache tiers holding the key, an enabled
directive for version 2 still sends the call to the cascade under the
rewritten canonical identifier. -/
theorem loadConfig_experiment_override_witness :
    (validExperimentPayload experimentPayloadDemo = true ∧
     experimentEnabled experimentPayloadDemo = true) ∧
    loadConfigPlan "default" true true (.content (.ok experimentPayloadDemo))
      (fun _ => some "lru-hit") (fun _ => some "redis-hit") loadOptsDemo =
      (.cascadeTier, "default:hrkg:_:extraction:v2", 2) :=
  ⟨⟨by decide, by decide⟩,
   (loadConfig_experiment_override.1 "default" (fun _ => some "lru-hit")
     (fun _ => some "redis-hit") loadOptsDemo experimentPayloadDemo
     (by decide) (by decide)).trans (by decide)⟩

/-- C7 counterexample: a 65-character module made of slashes contains
dangerous characters, yet `validateModule` raises the plain too-long
error, not the security violation — the length check runs first. -/
theorem validateModule_long_dangerous :
    containsDangerous longSlashModule = true ∧
    validateModule longSlashModule = .error (.jsError "Module name too long: 65 > 64") := by
  decide

/-- C7 amended: for every module of length at most 64 that contains an
element of the dangerous set, `validateModule` raises the security
violation, an error distinct from the invalid-format error (a longer
module hits the too-long format error first); the uppercase module `Hrkg`
raises the non-security format error; and `validateUserId` returns `false`
on any string containing a disallowed character, never raising. -/
theorem validator_error_classes :
    (∀ module : String, module.length ≤ 64 → containsDangerous module = true →
       validateModule module =
         .error (.securityError ("Invalid characters in module: " ++ module))) ∧
    validateModule "Hrkg" =
      .error (.jsError ("Invalid module format: Hrkg. Must be \x27_default\x27 or start with lowercase letter and contain only lowercase letters, numbers, and underscores")) ∧
    (∀ (userId : String) (c : Char), c ∈ userId.data →
       (isLowerAlpha c || isUpperAlpha c || isDigitChar c || c = '_' || c = '-') = false →
       validateUserId userId = false) := by
  refine ⟨?_, by decide, ?_⟩
  · intro module hlen hdang
    have hne : module ≠ "" := by
      intro h
      subst h
      exact absurd hdang (by decide)
    have h64 : ¬(module.length > 64) := by omega
    simp [validateModule, hne, h64, hdang]
  · intro userId c hc hbad
    have hpat : validUserIdPattern userId = false := by
      cases hall : userId.data.all
          (fun d => isLowerAlpha d || isUpperAlpha d || isDigitChar d || d = '_' || d = '-') with
      | true => exact absurd (List.all_eq_true.mp hall c hc) (by simp [hbad])
      | false => simp [validUserIdPattern, hall]
    unfold validateUserId
    split
    · rfl
    · split
      · rfl
      · split
        · rfl
        · exact hpat

/-- C7 witness: the security violation on `../etc` (length 6, contains
both `..` and `/`) and the graceful `false` on a user id containing `!`. -/
theorem validator_error_classes_witness :
    (("../etc" : String).length ≤ 64 ∧ containsDangerous "../etc" = true ∧
     '!' ∈ ("user!1" : String).data ∧
     (isLowerAlpha '!' || isUpperAlpha '!' || isDigitChar '!' || '!' = '_' || '!' = '-') = false) ∧
    validateModule "../etc" = .error (.securityError "Invalid characters in module: ../etc") ∧
    validateUserId "user!1" = false :=
  ⟨⟨by decide, by decide, by decide, by decide⟩,
   (validator_error_classes.1 "../etc" (by decide) (by decide)).trans (by decide),
   validator_error_classes.2.2 "user!1" '!' (by decide) (by decide)⟩

/-! ## Lemmas for the cascade policy -/

theorem string_data_append (s t : String) : (s ++ t).data = s.data ++ t.data := rfl

theorem leadsWith_append_self : ∀ (a b : List Char), leadsWith a (a ++ b) = true := by
  intro a b
  induction a with
  | nil => rfl
  | cons c cs ih => simp [leadsWith, ih]

theorem hasSubstring_self_append : ∀ (a b : List Char), hasSubstring a (a ++ b) = true := by
  intro a b
  cases a with
  | nil =>
    cases b with
    | nil => rfl
    | cons c cs => simp [hasSubstring, leadsWith]
  | cons c cs => simp [hasSubstring, leadsWith, leadsWith_append_self]

theorem hasSubstring_append_left (sub : List Char) :
    ∀ (pre l : List Char), hasSubstring sub l = true → hasSubstring sub (pre ++ l) = true := by
  intro pre
  induction pre with
  | nil => intro l h; simpa using h
  | cons c cs ih => intro l h; simp [hasSubstring, ih l h]

theorem mem_joinSep_hasSubstring :
    ∀ (l : List String) (x : String), x ∈ l →
      hasSubstring x.data (joinSep ", " l).data = true := by
  intro l
  induction l with
  | nil => intro x h; simp at h
  | cons y ys ih =>
    intro x hx
    rcases List.mem_cons.mp hx with h | h
    · subst h
      cases ys with
      | nil => simpa using hasSubstring_self_append x.data []
      | cons z zs =>
        have := hasSubstring_self_append x.data
          (", ".data ++ (joinSep ", " (z :: zs)).data)
        simpa [joinSep, string_data_append, List.append_assoc] using this
    · cases ys with
      | nil => simp at h
      | cons z zs =>
        have := hasSubstring_append_left x.data (y.data ++ ", ".data) _ (ih x h)
        simpa [joinSep, string_data_append, List.append_assoc] using this

theorem cascadeLoop_skip_notFound (fs : String → String → Int → Except JSError FileConfig)
    (o : String) (all : List CascadeStep) :
    ∀ (pre rest : List CascadeStep),
      (∀ t ∈ pre, ∃ m, fs t.module t.profile t.version = .error (.configNotFoundError m)) →
      cascadeLoop fs o all (pre ++ rest) = cascadeLoop fs o all rest := by
  intro pre
  induction pre with
  | nil => intro rest _; rfl
  | cons s ss ih =>
    intro rest h
    obtain ⟨m, hm⟩ := h s (List.mem_cons_self _ _)
    have hstep : cascadeLoop fs o all ((s :: ss) ++ rest) = cascadeLoop fs o all (ss ++ rest) := by
      simp [cascadeLoop, hm]
    rw [hstep]
    exact ih rest (fun t ht => h t (List.mem_cons_of_mem _ ht))

theorem cascadeLoop_abort (fs : String → String → Int → Except JSError FileConfig)
    (o : String) (all : List CascadeStep) (s : CascadeStep) (rest : List CascadeStep)
    (e : JSError) (hfs : fs s.module s.profile s.version = .error e)
    (hne : ∀ m, e ≠ .configNotFoundError m) :
    cascadeLoop fs o all (s :: rest) = .error e := by
  cases e <;> first
    | exact absurd rfl (hne _)
    | simp [cascadeLoop, hfs]

theorem cascadeLoop_success (fs : String → String → Int → Except JSError FileConfig)
    (o : String) (all : List CascadeStep) (s : CascadeStep) (rest : List CascadeStep)
    (config : FileConfig) (hfs : fs s.module s.profile s.version = .ok config) :
    cascadeLoop fs o all (s :: rest) =
      .ok { config := config, configId := stepConfigId s, scope := s.scope,
            module := s.module, profile := s.profile, version := s.version } := by
  simp [cascadeLoop, hfs]

theorem cascadeLoop_all_notFound (fs : String → String → Int → Except JSError FileConfig)
    (o : String) (all steps : List CascadeStep)
    (h : ∀ t ∈ steps, ∃ m, fs t.module t.profile t.version = .error (.configNotFoundError m)) :
    cascadeLoop fs o all steps = .error (.configNotFoundError (cascadeNotFoundMessage o all)) := by
  have := cascadeLoop_skip_notFound fs o all steps [] h
  simpa using this

theorem resolveWithCascade_eq_loop (fs : String → String → Int → Except JSError FileConfig)
    (scope module userId profile : String) (version : Int)
    (hs : validateScope scope = .ok ())
    (hm : validateModule module = .ok ())
    (hp : validateProfile profile = .ok ())
    (hv : validateVersion version = .ok ()) :
    resolveWithCascade fs scope module userId profile version =
      cascadeLoop fs
        (buildConfigId scope module (if validateUserId userId then userId else "_") profile version)
        (generateCascadeSteps scope module (if validateUserId userId then userId else "_") profile version)
        (generateCascadeSteps scope module (if validateUserId userId then userId else "_") profile version) := by
  unfold resolveWithCascade
  rw [hs, hm, hp, hv]

/-- C4: during cascade resolution (with the four validators passing), a
not-found failure at a non-final candidate is swallowed and later
candidates decide the outcome (the first success wins with the coordinate
of the winning step); any failure that is not a `ConfigNotFoundError`
aborts the whole resolution with that error no matter what the file system
would answer for the remaining candidates; and if every candidate fails
not-found, the resolution fails with a `ConfigNotFoundError` whose message
contains every attempted canonical identifier. -/
theorem resolveWithCascade_error_policy
    (fs : String → String → Int → Except JSError FileConfig)
    (scope module userId profile : String) (version : Int)
    (vu : String) (steps : List CascadeStep) (origId : String)
    (hs : validateScope scope = .ok ())
    (hm : validateModule module = .ok ())
    (hp : validateProfile profile = .ok ())
    (hv : validateVersion version = .ok ())
    (hu : vu = if validateUserId userId then userId else "_")
    (hsteps : steps = generateCascadeSteps scope module vu profile version)
    (horig : origId = buildConfigId scope module vu profile version) :
    (∀ pre s post e, steps = pre ++ s :: post →
       (∀ t ∈ pre, ∃ m, fs t.module t.profile t.version = .error (.configNotFoundError m)) →
       fs s.module s.profile s.version = .error e →
       (∀ m, e ≠ .configNotFoundError m) →
       resolveWithCascade fs scope module userId profile version = .error e) ∧
    (∀ pre s post config, steps = pre ++ s :: post →
       (∀ t ∈ pre, ∃ m, fs t.module t.profile t.version = .error (.configNotFoundError m)) →
       fs s.module s.profile s.version = .ok config →
       resolveWithCascade fs scope module userId profile version =
         .ok { config := config, configId := stepConfigId s, scope := s.scope,
               module := s.module, profile := s.profile, version := s.version }) ∧
    ((∀ t ∈ steps, ∃ m, fs t.module t.profile t.version = .error (.configNotFoundError m)) →
       resolveWithCascade fs scope module userId profile version =
         .error (.configNotFoundError (cascadeNotFoundMessage origId steps)) ∧
       ∀ t ∈ steps,
         hasSubstring (stepConfigId t).data (cascadeNotFoundMessage origId steps).data = true) := by
  subst hu
  subst hsteps
  subst horig
  have hres := resolveWithCascade_eq_loop fs scope module userId profile version hs hm hp hv
  refine ⟨?_, ?_, ?_⟩
  · intro pre s post e hdecomp hpre hfs hne
    rw [hres, hdecomp, cascadeLoop_skip_notFound _ _ _ pre (s :: post) hpre]
    exact cascadeLoop_abort _ _ _ s post e hfs hne
  · intro pre s post config hdecomp hpre hfs
    rw [hres, hdecomp, cascadeLoop_skip_notFound _ _ _ pre (s :: post) hpre]
    exact cascadeLoop_success _ _ _ s post config hfs
  · intro hall
    constructor
    · rw [hres]
      exact cascadeLoop_all_notFound _ _ _ _ hall
    · intro t ht
      have h1 := mem_joinSep_hasSubstring _ _ (List.mem_map_of_mem stepConfigId ht)
      have h2 := hasSubstring_append_left (stepConfigId t).data
        ("Config not found after cascade resolution: " ++
          buildConfigId scope module (if validateUserId userId then userId else "_") profile version ++
          ". Checked: ").data _ h1
      simpa [cascadeNotFoundMessage, string_data_append, List.append_assoc] using h2

/-- A file system on which every candidate is missing, used by the C4
witness. -/
def cascadeFsMissing : String → String → Int → Except JSError FileConfig :=
  fun module profile _ =>
    .error (.configNotFoundError ("missing " ++ module ++ ":" ++ profile))

/-- C4 witness: an all-missing file system yields the final
`ConfigNotFoundError`, and each of the four attempted canonical
identifiers occurs in its message. -/
theorem resolveWithCascade_error_policy_witness :
    (validateScope "default" = .ok () ∧ validateModule "hrkg" = .ok () ∧
     validateProfile "extraction" = .ok () ∧ validateVersion 1 = .ok ()) ∧
    resolveWithCascade cascadeFsMissing "default" "hrkg" "_" "extraction" 1 =
      .error (.configNotFoundError (cascadeNotFoundMessage
        (buildConfigId "default" "hrkg" "_" "extraction" 1)
        (generateCascadeSteps "default" "hrkg" "_" "extraction" 1))) ∧
    ∀ t ∈ generateCascadeSteps "default" "hrkg" "_" "extraction" 1,
      hasSubstring (stepConfigId t).data
        (cascadeNotFoundMessage (buildConfigId "default" "hrkg" "_" "extraction" 1)
          (generateCascadeSteps "default" "hrkg" "_" "extraction" 1)).data = true := by
  have h := (resolveWithCascade_error_policy cascadeFsMissing "default" "hrkg" "_" "extraction" 1
    "_" (generateCascadeSteps "default" "hrkg" "_" "extraction" 1)
    (buildConfigId "default" "hrkg" "_" "extraction" 1)
    (by decide) (by decide) (by decide) (by decide) (by decide) rfl rfl).2.2
    (fun t _ => ⟨"missing " ++ t.module ++ ":" ++ t.profile, rfl⟩)
  exact ⟨⟨by decide, by decide, by decide, by decide⟩, h.1, h.2⟩

end Llmix
